import Mathlib

/-!
Verification of the real-time voice session pipeline of the EchoCode
repository: the server-side WebSocket session coordinator
(`copilot-server/src/websocket/audioHandler.ts`), the Deepgram STT session
(`copilot-server/src/services/speechToText.ts`), the Fish Audio TTS chunk
stream (`copilot-server/src/services/textToSpeech.ts`), and the client-side
connection manager (`copilot-ui/src/hooks/useWebSocket.ts`) and playback
buffer manager (`copilot-ui/src/components/SidecarView.tsx`).

The TypeScript code is embedded shallowly: each function becomes a pure
Lean function over an explicit state, with the environment (socket
readiness, provider stream contents, send failures) passed as parameters.
JavaScript exceptions are modelled with `Except`; functions that catch all
exceptions internally are total Lean functions.
-/

namespace EchoCode

/-! ## Transmission Guard: `safeSend` (audioHandler.ts lines 19-33)

A WebSocket channel is modelled by its numeric `readyState` (the `ws`
library uses 0 = CONNECTING, 1 = OPEN, 2 = CLOSING, 3 = CLOSED) together
with whether the underlying `ws.send` call would throw for this payload.
-/

/-- `WebSocket.OPEN` in the `ws` library. -/
def wsOPEN : Nat := 1

/-- Model of one outbound channel at the moment of a `safeSend` call:
its reported `readyState` and whether `ws.send` would throw. -/
structure Channel where
  readyState : Nat
  sendThrows : Bool
deriving Repr, DecidableEq

/-- The raw `ws.send` call: throws exactly when the environment says so. -/
def rawSend (ch : Channel) : Except String Unit :=
  if ch.sendThrows then Except.error "ETIMEDOUT" else Except.ok ()

/-- `safeSend` from audioHandler.ts: returns the success flag and the
number of `ws.send` calls issued (0 or 1).  It is a total function: the
`try/catch` in the source means no exception escapes. -/
def safeSend (ch : Channel) : Bool × Nat :=
  if ch.readyState = wsOPEN then
    match rawSend ch with
    | Except.ok _ => (true, 1)
    | Except.error _ => (false, 1)
  else
    (false, 0)

/-! ## TTS Chunk Stream: `synthesizeSpeechStream` (textToSpeech.ts lines 110-157)

The provider side of one streaming synthesis request is modelled by
whether the initial HTTP request was accepted, the list of raw binary
chunks the response stream delivered before terminating, and how the
stream terminated. -/

/-- How the provider's response stream terminated. -/
inductive StreamTermination where
  | normal : StreamTermination
  | abnormal : String → StreamTermination
deriving Repr, DecidableEq

/-- The provider-side behaviour of one synthesis request. -/
structure TTSRequest where
  accepted : Bool
  rawChunks : List (List Nat)
  termination : StreamTermination
deriving Repr, DecidableEq

/-- Result of driving the async generator to completion: the chunks it
yielded, and whether it returned normally or threw. -/
structure GenResult where
  yielded : List (List Nat)
  outcome : Except String Unit
deriving Repr

/-- `synthesizeSpeechStream` from textToSpeech.ts lines 110-157.  If the
request is rejected the generator throws before yielding anything.  If it
is accepted, the `for await` loop yields every non-empty chunk
(`if chunk && chunk.length > 0`); an abnormal stream termination rejects
the iteration, and the `catch` block logs and **re-throws** the error, so
the generator ends with an exception after its k yielded chunks. -/
def synthesizeSpeechStream (req : TTSRequest) : GenResult :=
  if req.accepted then
    { yielded := req.rawChunks.filter (fun c => c.length > 0)
      outcome :=
        match req.termination with
        | StreamTermination.normal => Except.ok ()
        | StreamTermination.abnormal e => Except.error e }
  else
    { yielded := [], outcome := Except.error "request rejected" }

/-! ## Server → client messages -/

/-- Outbound server messages relevant to the session pipeline. -/
inductive ServerMsg where
  | ready : ServerMsg
  | recordingStarted : ServerMsg
  | recordingStopped : String → ServerMsg
  | transcriptMsg : String → Bool → ServerMsg
  | aiResponse : String → ServerMsg
  | audio : List Nat → Nat → ServerMsg
  | audioEnd : Nat → ServerMsg
  | errorMsg : String → ServerMsg
deriving Repr, DecidableEq

/-- Is this an `audio` message? -/
def ServerMsg.isAudio : ServerMsg → Bool
  | ServerMsg.audio _ _ => true
  | _ => false

/-- Is this an `audio_end` message? -/
def ServerMsg.isAudioEnd : ServerMsg → Bool
  | ServerMsg.audioEnd _ => true
  | _ => false

/-- Is this an `error` message? -/
def ServerMsg.isError : ServerMsg → Bool
  | ServerMsg.errorMsg _ => true
  | _ => false

/-- A trace of attempted sends: each message paired with the success flag
returned by `safeSend` for it. -/
abbrev SendTrace := List (ServerMsg × Bool)

/-- The messages the client actually receives: those whose send
succeeded. -/
def received (tr : SendTrace) : List ServerMsg :=
  (tr.filter (fun p => p.2)).map (fun p => p.1)

/-! ## The TTS leg of `handleTranscript` (audioHandler.ts lines 427-457)

The `for await` loop sends each chunk as an `audio` message with
`chunkIndex: chunkCount++` and breaks on the first failed send; after the
loop, `audio_end` with `totalChunks = chunkCount` is sent.  If the
generator throws (abnormal stream termination reached, i.e. the loop was
not broken early), the inner `catch (ttsError)` sends an `error` message
instead.  Each send's success is an environment input: `sendOk i` is the
result of the `safeSend` of the audio chunk with index `i`, `endOk` of the
`audio_end` send, `errOk` of the inner catch's `error` send. -/

/-- The chunk-sending loop.  Returns the send trace, the final value of
`chunkCount`, and whether the loop ran to completion (no `break`). -/
def sendChunksLoop (chunks : List (List Nat)) (chunkCount : Nat)
    (sendOk : Nat → Bool) : SendTrace × Nat × Bool :=
  match chunks with
  | [] => ([], chunkCount, true)
  | c :: cs =>
    let ok := sendOk chunkCount
    let entry : ServerMsg × Bool := (ServerMsg.audio c chunkCount, ok)
    if ok then
      let rest := sendChunksLoop cs (chunkCount + 1) sendOk
      (entry :: rest.1, rest.2.1, rest.2.2)
    else
      ([entry], chunkCount + 1, false)

/-- Prefix of the error message produced by the inner TTS catch. -/
def ttsErrPrefix : String := "Failed to generate speech: "

/-- The inner `try { for await ... } catch (ttsError)` block of
`handleTranscript`. -/
def ttsLeg (gen : GenResult) (sendOk : Nat → Bool) (endOk errOk : Bool) :
    SendTrace :=
  let r := sendChunksLoop gen.yielded 0 sendOk
  if r.2.2 then
    match gen.outcome with
    | Except.ok _ => r.1 ++ [(ServerMsg.audioEnd r.2.1, endOk)]
    | Except.error e =>
        r.1 ++ [(ServerMsg.errorMsg (ttsErrPrefix ++ e), errOk)]
  else
    r.1 ++ [(ServerMsg.audioEnd r.2.1, endOk)]

/-- `handleTranscript` from audioHandler.ts lines 414-466.  The LLM call's
result is an environment input; on LLM failure the outer catch sends one
`error` message.  On success the reply text is sent as `ai_response`
followed by the TTS leg.  The function is total: every exception is caught
inside, so the server process never terminates because of it. -/
def handleTranscript (llm : Except String String) (req : TTSRequest)
    (aiOk : Bool) (sendOk : Nat → Bool) (endOk errOk outerErrOk : Bool) :
    SendTrace :=
  match llm with
  | Except.error e => [(ServerMsg.errorMsg e, outerErrOk)]
  | Except.ok reply =>
      (ServerMsg.aiResponse reply, aiOk) ::
        ttsLeg (synthesizeSpeechStream req) sendOk endOk errOk

/-! ## STT Session: `DeepgramTranscriber` (speechToText.ts lines 47-357)

The transcriber's state is the nullability of its `connection` handle and
open promise, plus the three boolean flags.  Execution is single-threaded
and cooperative: a method runs atomically up to its first `await`. -/

/-- The mutable fields of a `DeepgramTranscriber` instance. -/
structure Transcriber where
  hasConnection : Bool
  isConnected : Bool
  isStarting : Bool
  isStopping : Bool
  hasOpenPromise : Bool
deriving Repr, DecidableEq

/-- A freshly constructed transcriber. -/
def Transcriber.fresh : Transcriber :=
  { hasConnection := false, isConnected := false, isStarting := false
    isStopping := false, hasOpenPromise := false }

/-- `isActive()` from speechToText.ts lines 330-333. -/
def Transcriber.isActive (t : Transcriber) : Bool :=
  t.isConnected && t.hasConnection

/-- `isConnectionReady()` from speechToText.ts lines 339-356.  The
provider socket's `getReadyState?.()` result is an environment input:
`none` models the method being absent (the check then falls through). -/
def Transcriber.isConnectionReady (t : Transcriber) (rs : Option Nat) :
    Bool :=
  if !t.hasConnection || !t.isConnected then false
  else
    match rs with
    | some n => n = 1
    | none => true

/-- Result of one `sendAudio` call. -/
inductive SendAudioResult where
  | noConnection : SendAudioResult
  | flagFalse : SendAudioResult
  | staleReadyState : SendAudioResult
  | forwarded : SendAudioResult
  | sendFailed : SendAudioResult
deriving Repr, DecidableEq

/-- `sendAudio` from speechToText.ts lines 237-273.  Note the source's
readyState guard is `if (readyState && readyState !== 1)`: a *falsy*
readyState (0) slips past it.  A throwing provider send is caught: the
flag is dropped and an `error` event emitted, but nothing propagates to
the caller. -/
def Transcriber.sendAudio (t : Transcriber) (rs : Option Nat)
    (sendThrows : Bool) : Transcriber × SendAudioResult :=
  if !t.hasConnection then (t, SendAudioResult.noConnection)
  else if !t.isConnected then (t, SendAudioResult.flagFalse)
  else
    let stale :=
      match rs with
      | some n => n ≠ 0 && n ≠ 1
      | none => false
    if stale then
      ({ t with isConnected := false }, SendAudioResult.staleReadyState)
    else if sendThrows then
      ({ t with isConnected := false }, SendAudioResult.sendFailed)
    else
      (t, SendAudioResult.forwarded)

/-- The primitive operations `stop()` performs, in order. -/
inductive StopAction where
  | clearFlags : StopAction
  | finishProvider : StopAction
  | releaseConnection : StopAction
deriving Repr, DecidableEq

/-- `stop()` from speechToText.ts lines 279-325, run to completion.  Two
idempotency guards return immediately; otherwise the connected/starting
flags are cleared *first*, then (if a connection exists) `finish()` is
attempted — a throw there is caught and logged — and the handles are
released.  `finishThrows` is the environment input for that throw; it
does not change the resulting state. -/
def Transcriber.stopRun (t : Transcriber) (finishThrows : Bool) :
    Transcriber × List StopAction :=
  if !t.hasConnection && !t.isConnected && !t.isStarting then (t, [])
  else if t.isStopping then (t, [])
  else
    let cleared := { t with isStopping := true, isConnected := false
                            isStarting := false }
    if t.hasConnection then
      let _ := finishThrows
      ({ cleared with hasConnection := false, hasOpenPromise := false
                      isStopping := false },
       [StopAction.clearFlags, StopAction.finishProvider,
        StopAction.releaseConnection])
    else
      ({ cleared with isStopping := false }, [StopAction.clearFlags])

/-- What the first atomic segment of `start()` did. -/
inductive StartOutcome where
  | alreadyConnected : StartOutcome
  | awaitExisting : StartOutcome
  | throwNoClient : StartOutcome
  | opening : StartOutcome
deriving Repr, DecidableEq

/-- The first atomic segment of `start()` (speechToText.ts lines 64-120):
everything up to `await this.connectionOpenPromise`.  Returns the new
state, the number of provider connections opened by this segment, and the
control outcome.  `client.listen.live` (the provider connection open) and
the promise creation happen inside this segment with no intervening
suspension point. -/
def Transcriber.startStep (t : Transcriber) (clientOk : Bool) :
    Transcriber × Nat × StartOutcome :=
  if t.isConnected && t.hasConnection then (t, 0, StartOutcome.alreadyConnected)
  else if t.isStarting && t.hasOpenPromise then
    (t, 0, StartOutcome.awaitExisting)
  else
    let t0 := { t with isStarting := true }
    if !clientOk then
      ({ t0 with isStarting := false }, 0, StartOutcome.throwNoClient)
    else
      ({ t0 with hasConnection := true, hasOpenPromise := true }, 1,
       StartOutcome.opening)

/-- State after `start()` resolved successfully: the `open` handler set
`isConnected := true, isStarting := false` and the connection and promise
handles are retained. -/
def Transcriber.afterOpen : Transcriber :=
  { hasConnection := true, isConnected := true, isStarting := false
    isStopping := false, hasOpenPromise := true }

/-- State after `start()` rejected: the `catch` block nulls the
connection and promise and clears both flags (speechToText.ts
lines 224-231). -/
def Transcriber.afterStartFailure : Transcriber :=
  { hasConnection := false, isConnected := false, isStarting := false
    isStopping := false, hasOpenPromise := false }

/-! ## Session Coordinator (audioHandler.ts `handleWebSocketConnection`)

Per-connection state: the `isSessionActive` flag, the nullable
transcriber reference and the accumulated `fullTranscript`. -/

/-- Per-connection coordinator state. -/
structure Session where
  isSessionActive : Bool
  transcriber : Option Transcriber
  fullTranscript : String
deriving Repr, DecidableEq

/-- State right after the connection is established. -/
def Session.init : Session :=
  { isSessionActive := true, transcriber := none, fullTranscript := "" }

/-- The primitive steps of the `start_recording` branch
(audioHandler.ts lines 220-256), in execution order. -/
inductive CoordAction where
  | stopOldTranscriber : CoordAction
  | removeOldListeners : CoordAction
  | createFreshTranscriber : CoordAction
  | attachHandlers : CoordAction
  | callStart : CoordAction
  | sendMsg : ServerMsg → CoordAction
deriving Repr, DecidableEq

/-- Does this action send a `recording_started` message? -/
def CoordAction.isStartedAck : CoordAction → Bool
  | CoordAction.sendMsg ServerMsg.recordingStarted => true
  | _ => false

/-- Does this action send an `error` message? -/
def CoordAction.isErrorSend : CoordAction → Bool
  | CoordAction.sendMsg (ServerMsg.errorMsg _) => true
  | _ => false

/-- Prefix of the error message sent when `start()` rejects. -/
def startErrPrefix : String := "Failed to start recording: "

/-- The `start_recording` branch of the message handler
(audioHandler.ts lines 220-256) as its ordered action trace.  If a
transcriber exists it is stopped, its listeners removed and the reference
dropped; a fresh instance is then created, handlers attached and
`start()` awaited.  Only after `start()` resolves is `recording_started`
sent; if `start()` (or the preceding `stop()`) rejects, the catch sends
one `error` message instead.  `startResult` is the environment input for
the awaited `start()`; the branch ignores each `safeSend`'s boolean
result, so the trace records the attempted sends themselves. -/
def startRecordingActions (hasExisting : Bool)
    (startResult : Except String Unit) : List CoordAction :=
  (if hasExisting then
      [CoordAction.stopOldTranscriber, CoordAction.removeOldListeners]
    else []) ++
  [CoordAction.createFreshTranscriber, CoordAction.attachHandlers,
   CoordAction.callStart] ++
  (match startResult with
   | Except.ok _ => [CoordAction.sendMsg ServerMsg.recordingStarted]
   | Except.error e =>
       [CoordAction.sendMsg (ServerMsg.errorMsg (startErrPrefix ++ e))])

/-- The coordinator-level events claims C5 and C10 range over. -/
inductive SessEvent where
  | finalTranscript : String → SessEvent
  | startRecording : Except String Unit → SessEvent
  | stopRecording : SessEvent
deriving Repr

/-- One coordinator step.  `finalTranscript text` is the `transcript`
handler installed by `setupTranscriberHandlers` (audioHandler.ts lines
54-83) for a final result: it appends `text + ' '` to the accumulated
transcript, sends the final `transcript` message and — when
`text.length > 5` — runs the LLM/TTS leg (`handleTranscript`, modelled
separately above; that leg never touches `fullTranscript`).
`startRecording r` is the `start_recording` branch with `start()`
resolving as `r`; `stopRecording` is the `stop_recording` branch
(audioHandler.ts lines 258-291): with a transcriber present it stops it,
drops it, sends `recording_stopped` carrying the accumulated transcript
and only then resets the transcript to the empty string; with no
transcriber it only logs a warning. -/
def sessStep (s : Session) : SessEvent → Session × List ServerMsg
  | SessEvent.finalTranscript text =>
      ({ s with fullTranscript := s.fullTranscript ++ text ++ " " },
       [ServerMsg.transcriptMsg text true])
  | SessEvent.startRecording r =>
      match r with
      | Except.ok _ =>
          ({ s with transcriber := some Transcriber.afterOpen },
           [ServerMsg.recordingStarted])
      | Except.error e =>
          ({ s with transcriber := some Transcriber.afterStartFailure },
           [ServerMsg.errorMsg (startErrPrefix ++ e)])
  | SessEvent.stopRecording =>
      match s.transcriber with
      | some _ =>
          ({ s with transcriber := none, fullTranscript := "" },
           [ServerMsg.recordingStopped s.fullTranscript])
      | none => (s, [])

/-- Run the coordinator over a list of events, concatenating traces. -/
def runSession (s : Session) : List SessEvent → Session × List ServerMsg
  | [] => (s, [])
  | e :: es =>
      let r := sessStep s e
      let rest := runSession r.1 es
      (rest.1, r.2 ++ rest.2)

/-- The final-transcript texts of an event list, each with the trailing
space the handler appends. -/
def finalsConcat : List SessEvent → String
  | [] => ""
  | SessEvent.finalTranscript t :: es => t ++ " " ++ finalsConcat es
  | _ :: es => finalsConcat es

/-- Does the event list contain a `stop_recording`? -/
def hasStop : List SessEvent → Bool
  | [] => false
  | SessEvent.stopRecording :: _ => true
  | _ :: es => hasStop es

/-! ## Non-JSON inbound frames (audioHandler.ts lines 96-335)

A frame is modelled by whether it arrived as a Buffer and by the outcome
of `JSON.parse` + the `'type' in parsed` check: `parsedTyped = false`
covers both a parse exception (caught at line 299) and a parse result
without a `type` field. -/

/-- What the raw-binary-audio branch did with a frame. -/
inductive RawFrameResult where
  | forwardedToSTT : RawFrameResult
  | warnedNotReady : RawFrameResult
  | ignored : RawFrameResult
deriving Repr, DecidableEq

/-- The `!isJsonMessage` fallback branch of the message handler
(audioHandler.ts lines 305-326), reached for every frame that does not
parse as a structured JSON message with a `type` field.  Returns the
result classification and the messages sent (none: no branch replies). -/
def handleNonJsonFrame (isBuffer : Bool) (transcriber : Option Transcriber)
    (sessionActive : Bool) (rs : Option Nat) :
    RawFrameResult × List ServerMsg :=
  if isBuffer then
    match transcriber with
    | some t =>
        if t.isActive && t.isConnectionReady rs && sessionActive then
          (RawFrameResult.forwardedToSTT, [])
        else if sessionActive then
          (RawFrameResult.warnedNotReady, [])
        else
          (RawFrameResult.ignored, [])
    | none => (RawFrameResult.ignored, [])
  else
    (RawFrameResult.ignored, [])

/-! ## Client Connection Manager: `useWebSocket` (useWebSocket.ts)

State: the reconnect attempt counter and the three refs that gate
reconnection.  Events are the handler invocations relevant to the
reconnect bound; each step returns the timer actions it scheduled. -/

/-- The hook's reconnect-relevant refs. -/
structure WSState where
  reconnectCount : Nat
  isConnecting : Bool
  shouldConnect : Bool
  intentionalDisconnect : Bool
deriving Repr, DecidableEq

/-- State on mount, right after the effect's first `connect()` call
(useWebSocket.ts lines 57-80): counter zero, maintain-connection on,
intentional-disconnect off. -/
def WSState.fresh : WSState :=
  { reconnectCount := 0, isConnecting := true, shouldConnect := true
    intentionalDisconnect := false }

/-- Events driving the reconnect logic. -/
inductive WSEvent where
  | closeEvt : WSEvent
  | openEvt : WSEvent
  | connectCall : WSEvent
  | disconnectCall : WSEvent
deriving Repr, DecidableEq

/-- Timer actions issued by a step: one scheduled reconnect, carrying the
attempt number logged and the fixed delay. -/
inductive WSAction where
  | scheduleReconnect : Nat → Nat → WSAction
deriving Repr, DecidableEq

/-- The `onclose` reconnect guard (useWebSocket.ts line 113): not an
intentional disconnect, still maintaining the connection, and below the
configured attempt cap. -/
def shouldRetry (R : Nat) (s : WSState) : Bool :=
  !s.intentionalDisconnect && s.shouldConnect &&
    decide (s.reconnectCount < R)

/-- One step of the hook, parametrised by the configured
`reconnectAttempts` cap `R` and `reconnectInterval` delay.
`closeEvt` is `ws.onclose` (lines 103-127): it reconnects only if the
disconnect was not intentional, `shouldConnect` holds and the counter is
below `R`, incrementing the counter and scheduling one retry after the
fixed delay.  `openEvt` is `ws.onopen` (lines 82-88): it resets the
counter to zero.  `connectCall` is the head of `connect()` (lines 70-73).
`disconnectCall` is `disconnect()` (lines 137-165): it sets the
intentional flag and clears `shouldConnect` before the close is issued,
clears any pending timer and resets the counter. -/
def wsStep (R interval : Nat) (s : WSState) :
    WSEvent → WSState × List WSAction
  | WSEvent.closeEvt =>
      let s1 := { s with isConnecting := false }
      if shouldRetry R s then
        ({ s1 with reconnectCount := s.reconnectCount + 1 },
         [WSAction.scheduleReconnect (s.reconnectCount + 1) interval])
      else
        (s1, [])
  | WSEvent.openEvt =>
      ({ s with isConnecting := false, reconnectCount := 0 }, [])
  | WSEvent.connectCall =>
      ({ s with isConnecting := true, shouldConnect := true
                intentionalDisconnect := false }, [])
  | WSEvent.disconnectCall =>
      ({ s with intentionalDisconnect := true, shouldConnect := false
                isConnecting := false, reconnectCount := 0 }, [])

/-- Run the hook over an event list, concatenating scheduled actions. -/
def runWS (R interval : Nat) (s : WSState) :
    List WSEvent → WSState × List WSAction
  | [] => (s, [])
  | e :: es =>
      let r := wsStep R interval s e
      let rest := runWS R interval r.1 es
      (rest.1, r.2 ++ rest.2)

/-- Is the event list a pure failure run: only connection-failure closes
and the `connect()` retries they trigger (no successful open, no
intentional disconnect)? -/
def failureRunOnly : List WSEvent → Bool
  | [] => true
  | WSEvent.closeEvt :: es => failureRunOnly es
  | WSEvent.connectCall :: es => failureRunOnly es
  | _ => false

/-- Does the event list avoid any fresh `connect()` call? -/
def noConnectCall : List WSEvent → Bool
  | [] => true
  | WSEvent.connectCall :: _ => false
  | _ :: es => noConnectCall es

/-! ## Client Playback Buffer Manager (SidecarView.tsx)

State: sink readiness (`sourceBufferRef` non-null), the `isAppendingRef`
flag, the platform `SourceBuffer.updating` flag (true while an append is
in flight), and the pending chunk queue. -/

/-- Playback buffer manager state. -/
structure BufState where
  sinkReady : Bool
  appending : Bool
  updating : Bool
  queue : List (List Nat)
deriving Repr, DecidableEq

/-- Events driving the buffer manager.  `enqueue c thr` is a call of
`appendAudioChunk` (SidecarView.tsx lines 428-505) with chunk `c`, where
`thr` says whether a synchronous `appendBuffer` throw would occur;
`updateEnded thr` is the sink's `updateend` completion notification
(lines 334-370), with `thr` for the queued append it may issue;
`bufError`/`bufAbort` are the sink's `error`/`abort` events. -/
inductive BufEvent where
  | enqueue : List Nat → Bool → BufEvent
  | updateEnded : Bool → BufEvent
  | bufError : BufEvent
  | bufAbort : BufEvent
deriving Repr, DecidableEq

/-- Observable actions of a buffer step: a chunk pushed on the queue, or
an `appendBuffer` call issued — recording whether the sink was mid-append
(`updating`) at the moment of the call. -/
inductive BufAction where
  | queuedChunk : List Nat → BufAction
  | appendIssued : List Nat → Bool → BufAction
deriving Repr, DecidableEq

/-- Was this append issued while the sink was busy? -/
def BufAction.busyAtIssue : BufAction → Bool
  | BufAction.appendIssued _ b => b
  | BufAction.queuedChunk _ => false

/-- One step of the buffer manager.  `appendAudioChunk`: with no sink yet,
or with the appending flag set or the sink updating, the chunk is pushed
on the back of the queue; otherwise the flag is set and `appendBuffer`
is called (a synchronous throw is caught and clears the flag).  On
`updateend` the platform has finished the in-flight append, the handler
clears the flag and, if the queue is non-empty, shifts the head chunk and
appends it.  The sink's `error`/`abort` handlers clear the flag. -/
def bufStep (s : BufState) : BufEvent → BufState × List BufAction
  | BufEvent.enqueue c thr =>
      if !s.sinkReady then
        ({ s with queue := s.queue ++ [c] }, [BufAction.queuedChunk c])
      else if s.appending || s.updating then
        ({ s with queue := s.queue ++ [c] }, [BufAction.queuedChunk c])
      else if thr then
        ({ s with appending := false }, [BufAction.appendIssued c s.updating])
      else
        ({ s with appending := true, updating := true },
         [BufAction.appendIssued c s.updating])
  | BufEvent.updateEnded thr =>
      let s1 := { s with updating := false, appending := false }
      match s1.queue with
      | [] => (s1, [])
      | c :: rest =>
          if thr then
            ({ s1 with queue := rest, appending := false },
             [BufAction.appendIssued c s1.updating])
          else
            ({ s1 with queue := rest, appending := true, updating := true },
             [BufAction.appendIssued c s1.updating])
  | BufEvent.bufError => ({ s with appending := false }, [])
  | BufEvent.bufAbort => ({ s with appending := false }, [])

/-- Run the buffer manager over an event list. -/
def runBuf (s : BufState) : List BufEvent → BufState × List BufAction
  | [] => (s, [])
  | e :: es =>
      let r := bufStep s e
      let rest := runBuf r.1 es
      (rest.1, r.2 ++ rest.2)

/-! ## Theorems -/

/-- C6: the Transmission Guard's `safeSend` returns a boolean success
flag and never throws (it is a total function): when the channel's
readyState is not OPEN it returns false having issued no write; when the
write throws, the exception is caught and false is returned; and it
returns true exactly when the write was issued on an OPEN channel and
did not throw. -/
theorem safeSend_contract (ch : Channel) :
    (ch.readyState ≠ wsOPEN → safeSend ch = (false, 0)) ∧
    (ch.readyState = wsOPEN → ch.sendThrows = true → safeSend ch = (false, 1)) ∧
    ((safeSend ch).1 = true ↔ ch.readyState = wsOPEN ∧ ch.sendThrows = false) := by
  obtain ⟨rs, st⟩ := ch
  refine ⟨?_, ?_, ?_⟩ <;>
    by_cases h : rs = wsOPEN <;> cases st <;>
      simp [safeSend, rawSend, h]

/-- Witness for `safeSend_contract` on a closed channel and on an open
channel whose write throws. -/
theorem safeSend_contract_witness :
    safeSend ⟨3, false⟩ = (false, 0) ∧ safeSend ⟨1, true⟩ = (false, 1) :=
  ⟨(safeSend_contract ⟨3, false⟩).1 (by decide),
   (safeSend_contract ⟨1, true⟩).2.1 rfl rfl⟩

/-- C3: STT Session `start()` is idempotent.  If the transcriber is
already connected, `start()` returns immediately and opens no new
provider connection.  If a start is already in flight (not yet
connected, `isStarting` set, open promise pending), a second call awaits
that same promise and opens no new connection.  Hence two concurrent
`start()` calls from the idle state open exactly one provider
connection, the second awaiting the first's open-future. -/
theorem stt_start_idempotent (t : Transcriber) (clientOk : Bool) :
    (t.isConnected = true → t.hasConnection = true →
       t.startStep clientOk = (t, 0, StartOutcome.alreadyConnected)) ∧
    (t.isConnected = false → t.isStarting = true → t.hasOpenPromise = true →
       t.startStep clientOk = (t, 0, StartOutcome.awaitExisting)) ∧
    (t.isConnected = false → t.isStarting = false →
       (t.startStep true).2.1 + ((t.startStep true).1.startStep true).2.1 = 1 ∧
       ((t.startStep true).1.startStep true).2.2 = StartOutcome.awaitExisting) := by
  obtain ⟨hc, ic, ist, isp, hp⟩ := t
  refine ⟨?_, ?_, ?_⟩
  · intro h1 h2; subst h1; subst h2; simp [Transcriber.startStep]
  · intro h1 h2 h3; subst h1; subst h2; subst h3
    simp [Transcriber.startStep]
  · intro h1 h2; subst h1; subst h2; simp [Transcriber.startStep]

/-- Witness for `stt_start_idempotent`: two concurrent starts on a fresh
transcriber open exactly one provider connection. -/
theorem stt_start_idempotent_witness :
    (Transcriber.fresh.startStep true).2.1 +
      ((Transcriber.fresh.startStep true).1.startStep true).2.1 = 1 ∧
    ((Transcriber.fresh.startStep true).1.startStep true).2.2 =
      StartOutcome.awaitExisting :=
  (stt_start_idempotent Transcriber.fresh true).2.2 rfl rfl

/-- C4: `stop()` clears the connected/starting flags before attempting
the provider-side finish (the `clearFlags` action precedes
`finishProvider` in its action trace), and once `stop()` has completed,
every subsequent `sendAudio` call forwards nothing to the provider and
throws nothing (it is a total function returning a logged no-op
result).  The hypothesis `isStopping = false` says no other `stop()` is
mid-flight, which is the single-threaded reachability invariant for a
call that runs to completion. -/
theorem stt_stop_no_leak (t : Transcriber) (fin : Bool)
    (h : t.isStopping = false) :
    (StopAction.finishProvider ∈ (t.stopRun fin).2 →
       ((t.stopRun fin).2.indexOf StopAction.clearFlags <
         (t.stopRun fin).2.indexOf StopAction.finishProvider)) ∧
    (t.stopRun fin).1.isConnected = false ∧
    (t.stopRun fin).1.isStarting = false ∧
    (∀ rs st, ((t.stopRun fin).1.sendAudio rs st).2 ≠
       SendAudioResult.forwarded) := by
  obtain ⟨hc, ic, ist, isp, hp⟩ := t
  simp only at h
  subst h
  cases hc <;> cases ic <;> cases ist <;>
    simp [Transcriber.stopRun, Transcriber.sendAudio, List.indexOf] <;>
    decide

/-- Witness for `stt_stop_no_leak`: stopping a connected transcriber and
then calling `sendAudio` on an open provider socket forwards nothing. -/
theorem stt_stop_no_leak_witness :
    ((Transcriber.afterOpen.stopRun false).1.sendAudio (some 1) false).2 ≠
      SendAudioResult.forwarded :=
  (stt_stop_no_leak Transcriber.afterOpen false rfl).2.2.2 (some 1) false

/-- C9: a frame that does not parse as a structured JSON message with a
`type` field reaches the raw-binary fallback branch, which raises no
exception (the branch is a total function), sends no reply to the client
(in particular no `error` message), and forwards the frame to the STT
session exactly when it is a Buffer, the session is active, and the
transcriber exists, reports active and reports its connection ready. -/
theorem non_json_frame_policy (isBuffer : Bool) (tr : Option Transcriber)
    (sessionActive : Bool) (rs : Option Nat) :
    (handleNonJsonFrame isBuffer tr sessionActive rs).2 = [] ∧
    ((handleNonJsonFrame isBuffer tr sessionActive rs).1 =
        RawFrameResult.forwardedToSTT ↔
      isBuffer = true ∧ sessionActive = true ∧
        ∃ t, tr = some t ∧ t.isActive = true ∧
          t.isConnectionReady rs = true) := by
  cases isBuffer <;> cases tr <;>
    simp [handleNonJsonFrame] <;>
    rename_i t <;>
    by_cases h1 : t.isActive = true <;>
      by_cases h2 : t.isConnectionReady rs = true <;>
        cases sessionActive <;>
          simp_all [handleNonJsonFrame]

/-- C5: on `start_recording`, an existing STT session is stopped and
discarded before the fresh session is created (never reused); the
`recording_started` acknowledgement is attempted only when `start()` has
resolved successfully and only after the `start()` call; and when
`start()` rejects, one `error` message is attempted and no
`recording_started` is. -/
theorem start_recording_protocol (hasExisting : Bool)
    (r : Except String Unit) :
    (hasExisting = true →
       CoordAction.stopOldTranscriber ∈ startRecordingActions hasExisting r ∧
       (startRecordingActions hasExisting r).indexOf
           CoordAction.stopOldTranscriber <
         (startRecordingActions hasExisting r).indexOf
           CoordAction.createFreshTranscriber) ∧
    (CoordAction.sendMsg ServerMsg.recordingStarted ∈
         startRecordingActions hasExisting r →
       (∃ u, r = Except.ok u) ∧
       (startRecordingActions hasExisting r).indexOf CoordAction.callStart <
         (startRecordingActions hasExisting r).indexOf
           (CoordAction.sendMsg ServerMsg.recordingStarted)) ∧
    (∀ e, r = Except.error e →
       (startRecordingActions hasExisting r).countP
           CoordAction.isStartedAck = 0 ∧
       (startRecordingActions hasExisting r).countP
           CoordAction.isErrorSend = 1) := by
  cases hasExisting <;> rcases r with u | e <;>
    simp [startRecordingActions, List.indexOf, CoordAction.isStartedAck,
      CoordAction.isErrorSend, List.countP, List.countP.go,
      List.findIdx_cons] <;>
    decide

/-- Witness for `start_recording_protocol`: with an existing session and
a successful start, the old session is stopped before the fresh one is
created. -/
theorem start_recording_protocol_witness :
    CoordAction.stopOldTranscriber ∈
        startRecordingActions true (Except.ok ()) ∧
      (startRecordingActions true (Except.ok ())).indexOf
          CoordAction.stopOldTranscriber <
        (startRecordingActions true (Except.ok ())).indexOf
          CoordAction.createFreshTranscriber :=
  (start_recording_protocol true (Except.ok ())).1 rfl

/-- Witness for `non_json_frame_policy`: a binary frame during an active
session with a connected, ready transcriber is forwarded. -/
theorem non_json_frame_policy_witness :
    (handleNonJsonFrame true (some Transcriber.afterOpen) true (some 1)).1 =
      RawFrameResult.forwardedToSTT :=
  (non_json_frame_policy true (some Transcriber.afterOpen) true
      (some 1)).2.mpr
    ⟨rfl, rfl, Transcriber.afterOpen, rfl, rfl, rfl⟩

/-- When every audio send succeeds, the chunk loop sends one `audio`
message per chunk with consecutive indices starting at the initial
`chunkCount`, and runs to completion. -/
theorem sendChunksLoop_all_ok (sendOk : Nat → Bool)
    (h : ∀ i, sendOk i = true) :
    ∀ (chunks : List (List Nat)) (k : Nat),
      sendChunksLoop chunks k sendOk =
        ((List.enumFrom k chunks).map
           (fun p => (ServerMsg.audio p.2 p.1, true)),
         k + chunks.length, true) := by
  intro chunks
  induction chunks with
  | nil => intro k; simp [sendChunksLoop]
  | cons c cs ih =>
      intro k
      simp [sendChunksLoop, h k, ih (k + 1), List.enumFrom]
      omega

/-- C2: when the LLM reply is obtained, the synthesis request is
accepted, the provider stream ends normally after yielding its chunks,
and every outbound socket send succeeds, the server sends exactly one
`audio` message per yielded chunk with `chunkIndex` 0..N-1 in ascending
order, followed by exactly one `audio_end` with `totalChunks = N`. -/
theorem tts_chunk_order (req : TTSRequest) (reply : String)
    (sendOk : Nat → Bool) (errOk outerOk : Bool)
    (hacc : req.accepted = true)
    (hterm : req.termination = StreamTermination.normal)
    (hsend : ∀ i, sendOk i = true) :
    handleTranscript (Except.ok reply) req true sendOk true errOk outerOk =
      (ServerMsg.aiResponse reply, true) ::
      ((req.rawChunks.filter (fun c => c.length > 0)).enum.map
         (fun p => (ServerMsg.audio p.2 p.1, true)) ++
       [(ServerMsg.audioEnd
           (req.rawChunks.filter (fun c => c.length > 0)).length, true)]) := by
  simp [handleTranscript, ttsLeg, synthesizeSpeechStream, hacc, hterm,
    sendChunksLoop_all_ok sendOk hsend, List.enum]

/-- Witness for `tts_chunk_order`: a normal two-chunk stream produces
`audio` 0, `audio` 1, then `audio_end` with `totalChunks = 2`. -/
theorem tts_chunk_order_witness :
    handleTranscript (Except.ok "r")
        ⟨true, [[1], [2, 3]], StreamTermination.normal⟩
        true (fun _ => true) true true true =
      [(ServerMsg.aiResponse "r", true), (ServerMsg.audio [1] 0, true),
       (ServerMsg.audio [2, 3] 1, true), (ServerMsg.audioEnd 2, true)] := by
  have h := tts_chunk_order ⟨true, [[1], [2, 3]], StreamTermination.normal⟩
    "r" (fun _ => true) true true rfl rfl (fun i => rfl)
  simpa using h

/-- C1 counterexample: with the request accepted, one chunk delivered and
then an abnormal stream termination, and every socket send succeeding,
the client receives the one `audio` message but zero `audio_end`
messages — the claim's "exactly one `audio_end` with `totalChunks = k`"
is false on this input (the consumer's catch sends an `error` message
instead). -/
theorem tts_abnormal_counterexample :
    (received (handleTranscript (Except.ok "ok")
        ⟨true, [[1]], StreamTermination.abnormal "ECONNRESET"⟩
        true (fun _ => true) true true true)).countP
        (fun m => m.isAudio) = 1 ∧
    (received (handleTranscript (Except.ok "ok")
        ⟨true, [[1]], StreamTermination.abnormal "ECONNRESET"⟩
        true (fun _ => true) true true true)).countP
        (fun m => m.isAudioEnd) = 0 ∧
    (received (handleTranscript (Except.ok "ok")
        ⟨true, [[1]], StreamTermination.abnormal "ECONNRESET"⟩
        true (fun _ => true) true true true)).countP
        (fun m => m.isError) = 1 := by
  decide

/-- C1 as amended: if the provider accepts the request and the stream
terminates abnormally after its chunks, the generator re-throws the
stream error, `handleTranscript`'s inner catch absorbs it (the function
is total, so the exception never propagates further and the server
process does not terminate), and — with all sends succeeding — the
client receives exactly the k `audio` messages with indices 0..k-1
followed by exactly one `error` message and no `audio_end`. -/
theorem tts_abnormal_soft_stop (req : TTSRequest) (reply e : String)
    (sendOk : Nat → Bool) (outerOk : Bool)
    (hacc : req.accepted = true)
    (hterm : req.termination = StreamTermination.abnormal e)
    (hsend : ∀ i, sendOk i = true) :
    handleTranscript (Except.ok reply) req true sendOk true true outerOk =
      (ServerMsg.aiResponse reply, true) ::
      ((req.rawChunks.filter (fun c => c.length > 0)).enum.map
         (fun p => (ServerMsg.audio p.2 p.1, true)) ++
       [(ServerMsg.errorMsg (ttsErrPrefix ++ e), true)]) := by
  simp [handleTranscript, ttsLeg, synthesizeSpeechStream, hacc, hterm,
    sendChunksLoop_all_ok sendOk hsend, List.enum]

/-- Witness for `tts_abnormal_soft_stop` at a one-chunk stream cut off by
a connection reset. -/
theorem tts_abnormal_soft_stop_witness :
    handleTranscript (Except.ok "r")
        ⟨true, [[7]], StreamTermination.abnormal "ECONNRESET"⟩
        true (fun _ => true) true true true =
      [(ServerMsg.aiResponse "r", true), (ServerMsg.audio [7] 0, true),
       (ServerMsg.errorMsg (ttsErrPrefix ++ "ECONNRESET"), true)] := by
  have h := tts_abnormal_soft_stop
    ⟨true, [[7]], StreamTermination.abnormal "ECONNRESET"⟩ "r" "ECONNRESET"
    (fun _ => true) true rfl rfl (fun i => rfl)
  simpa using h

/-- During a failure run (only `close` events and the `connect` retries
they trigger), each scheduled reconnect increments the attempt counter,
which is never reset, so the schedules plus the starting count stay
within the cap. -/
theorem runWS_failure_bound (R interval : Nat) :
    ∀ (evs : List WSEvent) (s : WSState), failureRunOnly evs = true →
      s.reconnectCount ≤ R →
      (runWS R interval s evs).2.length + s.reconnectCount ≤ R := by
  intro evs
  induction evs with
  | nil => intro s _ hc; simpa [runWS] using hc
  | cons e es ih =>
      intro s hf hc
      cases e with
      | closeEvt =>
          cases hg : shouldRetry R s with
          | true =>
              have hlt : s.reconnectCount < R := by
                have hg2 := hg
                simp only [shouldRetry, Bool.and_eq_true,
                  decide_eq_true_eq] at hg2
                exact hg2.2
              have h2 := ih
                { s with isConnecting := false
                         reconnectCount := s.reconnectCount + 1 }
                (by simpa [failureRunOnly] using hf) (by simpa using hlt)
              simp only [runWS, wsStep, hg, if_true] at h2 ⊢
              simp only [List.length_append, List.length_cons,
                List.length_nil] at h2 ⊢
              simp at h2 ⊢
              omega
          | false =>
              have h2 := ih { s with isConnecting := false }
                (by simpa [failureRunOnly] using hf) (by simpa using hc)
              simp only [runWS, wsStep, hg, if_false] at h2 ⊢
              simpa using h2
      | connectCall =>
          have h2 := ih
            { s with isConnecting := true, shouldConnect := true
                     intentionalDisconnect := false }
            (by simpa [failureRunOnly] using hf) (by simpa using hc)
          simp only [runWS, wsStep]
          simpa using h2
      | openEvt => simp [failureRunOnly] at hf
      | disconnectCall => simp [failureRunOnly] at hf

/-- After an intentional disconnect, the `intentionalDisconnect` flag
stays set through any events that do not include a fresh `connect()`
call, and no reconnect is scheduled. -/
theorem runWS_intentional_silent (R interval : Nat) :
    ∀ (evs : List WSEvent) (s : WSState), noConnectCall evs = true →
      s.intentionalDisconnect = true →
      (runWS R interval s evs).2 = [] ∧
      (runWS R interval s evs).1.intentionalDisconnect = true := by
  intro evs
  induction evs with
  | nil => intro s _ hi; simpa [runWS] using hi
  | cons e es ih =>
      intro s hn hi
      cases e with
      | closeEvt =>
          have hg : shouldRetry R s = false := by simp [shouldRetry, hi]
          have h2 := ih { s with isConnecting := false }
            (by simpa [noConnectCall] using hn) (by simpa using hi)
          simp only [runWS, wsStep, hg, if_false]
          simpa [hi] using h2
      | openEvt =>
          have h2 := ih { s with isConnecting := false, reconnectCount := 0 }
            (by simpa [noConnectCall] using hn) (by simpa using hi)
          simp only [runWS, wsStep]
          simpa [hi] using h2
      | disconnectCall =>
          have h2 := ih
            { s with intentionalDisconnect := true, shouldConnect := false
                     isConnecting := false, reconnectCount := 0 }
            (by simpa [noConnectCall] using hn) rfl
          simp only [runWS, wsStep]
          simpa [hi] using h2
      | connectCall => simp [noConnectCall] at hn

/-- Every action any run schedules is a reconnect retry after the fixed
configured delay. -/
theorem runWS_fixed_delay (R interval : Nat) :
    ∀ (evs : List WSEvent) (s : WSState) (a : WSAction),
      a ∈ (runWS R interval s evs).2 →
      ∃ n, a = WSAction.scheduleReconnect n interval := by
  intro evs
  induction evs with
  | nil => intro s a ha; simp [runWS] at ha
  | cons e es ih =>
      intro s a ha
      simp only [runWS, List.mem_append] at ha
      rcases ha with ha | ha
      · cases e with
        | closeEvt =>
            cases hg : shouldRetry R s with
            | true =>
                simp only [wsStep, hg, if_true] at ha
                simp at ha
                exact ⟨s.reconnectCount + 1, ha⟩
            | false =>
                simp only [wsStep, hg, if_false] at ha
                simp at ha
        | openEvt => simp [wsStep] at ha
        | connectCall => simp [wsStep] at ha
        | disconnectCall => simp [wsStep] at ha
      · exact ih _ a ha

/-- C7: for a Connection Manager configured with `reconnectAttempts = R`,
a run of consecutive connection failures (from the mounted state) issues
at most R reconnect attempts, each scheduled after the fixed configured
delay; a successful open resets the attempt counter to zero; and after
an intentional `disconnect()` no reconnect attempt is issued, regardless
of R. -/
theorem reconnect_bound (R interval : Nat) (evs evs2 : List WSEvent)
    (s : WSState) :
    (failureRunOnly evs = true →
       (runWS R interval WSState.fresh evs).2.length ≤ R) ∧
    (wsStep R interval s WSEvent.openEvt).1.reconnectCount = 0 ∧
    (noConnectCall evs2 = true →
       (runWS R interval
          ((wsStep R interval s WSEvent.disconnectCall).1) evs2).2 = []) ∧
    (∀ a, a ∈ (runWS R interval s evs).2 →
       ∃ n, a = WSAction.scheduleReconnect n interval) := by
  refine ⟨?_, ?_, ?_, ?_⟩
  · intro hf
    have := runWS_failure_bound R interval evs WSState.fresh hf
      (by simp [WSState.fresh])
    simpa [WSState.fresh] using this
  · simp [wsStep]
  · intro hn
    exact (runWS_intentional_silent R interval evs2
      ((wsStep R interval s WSEvent.disconnectCall).1) hn (by simp [wsStep])).1
  · intro a ha
    exact runWS_fixed_delay R interval evs s a ha

/-- Witness for `reconnect_bound`: with a cap of 2, four consecutive
failures schedule at most two reconnects, and nothing is scheduled after
an intentional disconnect. -/
theorem reconnect_bound_witness :
    (runWS 2 3000 WSState.fresh
       [WSEvent.closeEvt, WSEvent.connectCall, WSEvent.closeEvt,
        WSEvent.connectCall, WSEvent.closeEvt, WSEvent.connectCall,
        WSEvent.closeEvt]).2.length ≤ 2 ∧
    (runWS 2 3000
       ((wsStep 2 3000 WSState.fresh WSEvent.disconnectCall).1)
       [WSEvent.closeEvt, WSEvent.closeEvt]).2 = [] :=
  ⟨(reconnect_bound 2 3000
      [WSEvent.closeEvt, WSEvent.connectCall, WSEvent.closeEvt,
       WSEvent.connectCall, WSEvent.closeEvt, WSEvent.connectCall,
       WSEvent.closeEvt] [] WSState.fresh).1 (by decide),
   (reconnect_bound 2 3000 [] [WSEvent.closeEvt, WSEvent.closeEvt]
      WSState.fresh).2.2.1 (by decide)⟩

/-- Any single buffer-manager step only calls `appendBuffer` at a moment
when the sink is not mid-append: the enqueue path is guarded by
`isAppendingRef / sourceBuffer.updating`, and the `updateend` path runs
after the platform has completed the prior append. -/
theorem bufStep_no_busy_append (s : BufState) (e : BufEvent) :
    ∀ a ∈ (bufStep s e).2, a.busyAtIssue = false := by
  cases e with
  | enqueue c thr =>
      by_cases h1 : s.sinkReady = true
      · by_cases h2 : (s.appending || s.updating) = true
        · simp [bufStep, h1, h2, BufAction.busyAtIssue]
        · have ha : s.appending = false := by
            cases hb : s.appending <;> simp_all
          have hu : s.updating = false := by
            cases hb : s.updating <;> simp_all
          cases thr <;>
            simp [bufStep, h1, ha, hu, BufAction.busyAtIssue]
      · simp [bufStep, h1, BufAction.busyAtIssue]
  | updateEnded thr =>
      cases hq : s.queue with
      | nil => simp [bufStep, hq]
      | cons c rest =>
          cases thr <;> simp [bufStep, hq, BufAction.busyAtIssue]
  | bufError => simp [bufStep]
  | bufAbort => simp [bufStep]

/-- Across any interleaving of buffer events, no append is ever issued
while the sink is busy. -/
theorem runBuf_no_busy_append :
    ∀ (evs : List BufEvent) (s : BufState) (a : BufAction),
      a ∈ (runBuf s evs).2 → a.busyAtIssue = false := by
  intro evs
  induction evs with
  | nil => intro s a ha; simp [runBuf] at ha
  | cons e es ih =>
      intro s a ha
      simp only [runBuf, List.mem_append] at ha
      rcases ha with ha | ha
      · exact bufStep_no_busy_append s e a ha
      · exact ih _ a ha

/-- C8: for every interleaving of enqueue calls and sink completion
notifications, the Playback Buffer Manager never issues an append while
a prior append is still in flight; a chunk arriving while the sink is
not ready, or while the appending flag or the sink's updating flag is
set, is pushed on the back of the FIFO queue with no append issued; and
each completion notification clears the appending flag and, when the
queue is non-empty, shifts the head chunk and appends exactly it. -/
theorem single_inflight_append (s : BufState) (evs : List BufEvent)
    (c : List Nat) (thr : Bool) :
    (∀ a ∈ (runBuf s evs).2, a.busyAtIssue = false) ∧
    (s.sinkReady = false →
       bufStep s (BufEvent.enqueue c thr) =
         ({ s with queue := s.queue ++ [c] }, [BufAction.queuedChunk c])) ∧
    (s.appending = true ∨ s.updating = true →
       bufStep s (BufEvent.enqueue c thr) =
         ({ s with queue := s.queue ++ [c] }, [BufAction.queuedChunk c])) ∧
    (s.queue = [] →
       bufStep s (BufEvent.updateEnded thr) =
         ({ s with appending := false, updating := false }, [])) ∧
    (∀ c0 rest, s.queue = c0 :: rest →
       (bufStep s (BufEvent.updateEnded thr)).2 =
         [BufAction.appendIssued c0 false] ∧
       (bufStep s (BufEvent.updateEnded thr)).1.queue = rest ∧
       (bufStep s (BufEvent.updateEnded thr)).1.appending = !thr) := by
  refine ⟨runBuf_no_busy_append evs s, ?_, ?_, ?_, ?_⟩
  · intro h; simp [bufStep, h]
  · intro h
    have hor : (s.appending || s.updating) = true := by
      rcases h with h | h <;> simp [h]
    by_cases h1 : s.sinkReady = true
    · simp [bufStep, h1, hor]
    · simp [bufStep, h1]
  · intro hq; simp [bufStep, hq]
  · intro c0 rest hq
    cases thr <;> simp [bufStep, hq]

/-- Witness for `single_inflight_append`: a chunk arriving mid-append is
queued, and the completion notification appends exactly the queued
head. -/
theorem single_inflight_append_witness :
    bufStep ⟨true, true, true, []⟩ (BufEvent.enqueue [5] false) =
      (⟨true, true, true, [[5]]⟩, [BufAction.queuedChunk [5]]) ∧
    (bufStep ⟨true, true, true, [[5]]⟩ (BufEvent.updateEnded false)).2 =
      [BufAction.appendIssued [5] false] :=
  ⟨(single_inflight_append ⟨true, true, true, []⟩ [] [5] false).2.2.1
     (Or.inl rfl),
   ((single_inflight_append ⟨true, true, true, [[5]]⟩ [] [5] false).2.2.2.2
     [5] [] rfl).1⟩

/-- Running the coordinator over a split event list runs the two halves
in sequence and concatenates their traces. -/
theorem runSession_append (l1 : List SessEvent) :
    ∀ (s : Session) (l2 : List SessEvent),
      runSession s (l1 ++ l2) =
        ((runSession (runSession s l1).1 l2).1,
         (runSession s l1).2 ++ (runSession (runSession s l1).1 l2).2) := by
  induction l1 with
  | nil => intro s l2; simp [runSession]
  | cons e es ih =>
      intro s l2
      simp only [List.cons_append, runSession, List.append_eq]
      rw [ih (sessStep s e).1 l2]
      simp [List.append_assoc]

/-- With no `stop_recording` among the events, the accumulated transcript
after the run is the starting transcript followed by every final
transcript, each with its trailing space. -/
theorem runSession_no_stop (evs : List SessEvent) :
    ∀ (s : Session), hasStop evs = false →
      (runSession s evs).1.fullTranscript =
        s.fullTranscript ++ finalsConcat evs := by
  induction evs with
  | nil => intro s _; simp [runSession, finalsConcat]
  | cons e es ih =>
      intro s hns
      cases e with
      | finalTranscript t =>
          have h2 := ih { s with
              fullTranscript := s.fullTranscript ++ t ++ " " }
            (by simpa [hasStop] using hns)
          simp only [runSession, sessStep, finalsConcat]
          rw [h2]
          simp only [String.append_assoc]
      | startRecording r =>
          rcases r with e0 | u
          · have h2 := ih
              { s with transcriber := some Transcriber.afterStartFailure }
              (by simpa [hasStop] using hns)
            simp only [runSession, sessStep, finalsConcat]
            rw [h2]
          · have h2 := ih { s with transcriber := some Transcriber.afterOpen }
              (by simpa [hasStop] using hns)
            simp only [runSession, sessStep, finalsConcat]
            rw [h2]
      | stopRecording => simp [hasStop] at hns

/-- C10: the accumulated transcript is cleared only by the
`stop_recording` handler, after the `recording_stopped` message carrying
it has been sent: `start_recording` leaves the transcript unchanged, the
`stop_recording` step with a live transcriber reports the pre-clear
transcript and only then resets it to empty, and a `recording_stopped`
after any stop-free run of starts and final transcripts reports the
concatenation of all final transcripts of those recordings. -/
theorem transcript_accumulates (s : Session) (evs : List SessEvent)
    (r : Except String Unit) (t : Transcriber)
    (hns : hasStop evs = false)
    (ht : (runSession s evs).1.transcriber = some t) :
    ((sessStep s (SessEvent.startRecording r)).1.fullTranscript =
       s.fullTranscript) ∧
    (∀ t2, s.transcriber = some t2 →
       (sessStep s SessEvent.stopRecording).2 =
         [ServerMsg.recordingStopped s.fullTranscript] ∧
       (sessStep s SessEvent.stopRecording).1.fullTranscript = "") ∧
    ((runSession s (evs ++ [SessEvent.stopRecording])).2 =
       (runSession s evs).2 ++
         [ServerMsg.recordingStopped
            (s.fullTranscript ++ finalsConcat evs)]) := by
  refine ⟨?_, ?_, ?_⟩
  · rcases r with u | e <;> simp [sessStep]
  · intro t2 ht2; simp [sessStep, ht2]
  · rw [runSession_append evs s [SessEvent.stopRecording]]
    simp only [runSession, sessStep, ht]
    rw [runSession_no_stop evs s hns]
    simp

/-- Witness for `transcript_accumulates`: two recordings without an
intervening stop accumulate both final transcripts, and the closing
`recording_stopped` reports their concatenation. -/
theorem transcript_accumulates_witness :
    (runSession Session.init
       [SessEvent.startRecording (Except.ok ()),
        SessEvent.finalTranscript "first utterance",
        SessEvent.startRecording (Except.ok ()),
        SessEvent.finalTranscript "second utterance",
        SessEvent.stopRecording]).2 =
      [ServerMsg.recordingStarted,
       ServerMsg.transcriptMsg "first utterance" true,
       ServerMsg.recordingStarted,
       ServerMsg.transcriptMsg "second utterance" true,
       ServerMsg.recordingStopped "first utterance second utterance "] := by
  have h := (transcript_accumulates Session.init
    [SessEvent.startRecording (Except.ok ()),
     SessEvent.finalTranscript "first utterance",
     SessEvent.startRecording (Except.ok ()),
     SessEvent.finalTranscript "second utterance"]
    (Except.ok ()) Transcriber.afterOpen rfl rfl).2.2
  rw [show ([SessEvent.startRecording (Except.ok ()),
     SessEvent.finalTranscript "first utterance",
     SessEvent.startRecording (Except.ok ()),
     SessEvent.finalTranscript "second utterance",
     SessEvent.stopRecording]) =
    ([SessEvent.startRecording (Except.ok ()),
     SessEvent.finalTranscript "first utterance",
     SessEvent.startRecording (Except.ok ()),
     SessEvent.finalTranscript "second utterance"] ++
       [SessEvent.stopRecording]) from rfl]
  rw [h]
  rfl

end EchoCode
